import Mathlib

/-!
Verification of the AlLibrary P2P overlay runtime
(`src-tauri/src/core/p2p/mod.rs` and the command facade in
`src-tauri/src/commands/p2p.rs`).

The runtime is a single-threaded event loop owning all overlay state, so it
embeds directly as pure transition functions on an explicit `RuntimeState`.
Side effects of one loop iteration (request/response messages, gossip
publishes, DHT operations, one-shot channel replies) are returned as an
explicit list of `Effect`s.  File-system interaction is modelled by a finite
map from paths to byte lists plus predicates saying which paths open
successfully for writing / reading.  Bytes are `Nat`s (values < 256 in all
runs); reply channels are identified by `Nat` ids.
-/

namespace AlLibrary

/-- Raw bytes, as exchanged by the chunk protocol. -/
abbrev Bytes := List Nat

/-- `const CHUNK_SIZE: usize = 64 * 1024;` -/
def CHUNK_SIZE : Nat := 64 * 1024

/-- Rust `Result<α, β>`. -/
inductive RustResult (α β : Type) where
  | ok (a : α)
  | err (e : β)
deriving DecidableEq, Repr

/-- `struct IndexedContent { path, title, author, tags }` — one entry of the
content index. -/
structure IndexedContent where
  path : String
  title : String
  author : Option String
  tags : List String
deriving DecidableEq, Repr

/-- `struct TransferStats { downloaded, size, last_tick_bytes, last_rate_bps }`. -/
structure TransferStats where
  downloaded : Nat
  size : Nat
  last_tick_bytes : Nat
  last_rate_bps : Nat
deriving DecidableEq, Repr

/-- `TransferStats::default()` — all counters zero. -/
def TransferStats.zero : TransferStats := ⟨0, 0, 0, 0⟩

/-- `struct PendingFile { peer, hash, offset, out_path, file, reply }`.
The open file handle is modelled by the `Fs` entry at `out_path`; the
one-shot reply sender is modelled by the channel id `replyId`. -/
structure PendingFile where
  peer : Nat
  hash : String
  offset : Nat
  out_path : String
  replyId : Nat
deriving DecidableEq, Repr

/-- Association-list lookup (models `HashMap::get` / `HashSet` membership
carriers).  First binding wins, matching the insert-replaces discipline of
`insertKey`. -/
def lookupKey {κ α : Type} [DecidableEq κ] (k : κ) : List (κ × α) → Option α
  | [] => none
  | kv :: rest => if kv.1 = k then some kv.2 else lookupKey k rest

/-- Association-list insert (models `HashMap::insert`: replaces any previous
binding of the key). -/
def insertKey {κ α : Type} [DecidableEq κ] (k : κ) (v : α) (m : List (κ × α)) :
    List (κ × α) :=
  (k, v) :: m.filter (fun kv => kv.1 ≠ k)

/-- Association-list removal (models `HashMap::remove`, dropping the value). -/
def eraseKey {κ α : Type} [DecidableEq κ] (k : κ) (m : List (κ × α)) :
    List (κ × α) :=
  m.filter (fun kv => kv.1 ≠ k)

/-- The value stored in a Kademlia record.  The three shapes the runtime
writes: raw caller bytes (`PutRecord`), a UTF-8 string (`AddPeerAddress`,
presence announce), and the `serde_json` content-metadata object of
`UpdateIndex`, represented by its (injectively serialized) fields. -/
inductive RecordValue where
  | bytes (b : Bytes)
  | str (s : String)
  | contentJson (hash path title : String) (author : Option String)
      (tags : List String) (peer_id : Nat)
deriving DecidableEq, Repr

/-- `kad::Record { key, value, publisher, expires }`.  `expires` is an
absolute instant in seconds. -/
structure KadRecord where
  key : String
  value : RecordValue
  publisher : Option Nat
  expires : Option Nat
deriving DecidableEq, Repr

/-- `kad::GetRecordOk` — the success payload of a DHT get query. -/
inductive KadGetOk where
  | foundRecord (r : KadRecord)
  | finishedWithNoAdditionalRecord
deriving DecidableEq, Repr

/-- Observable side effects of one event-loop step. -/
inductive Effect where
  | sendRequest (peer : Nat) (req : Bytes)
  | sendResponse (chan : Nat) (res : Bytes)
  | gossipPublish (topic : String) (data : Bytes)
  | kadPutRecord (r : KadRecord)
  | kadGetRecord (key : String)
  | kadBootstrap
  | dialAddr (addr : String)
  | fetchReply (rid : Nat) (r : RustResult String String)
  | putReply (rid : Nat) (r : RustResult Unit String)
  | getReply (rid : Nat) (r : RustResult Bytes String)
  | addPeerReply (rid : Nat) (r : RustResult String String)
  | metricsReply (rid : Nat) (m : List (String × Nat × Nat × Nat × String))
deriving DecidableEq, Repr

/-- The overlay state owned by the event loop (the slice the claims touch):
`content_index`, `connected`, `transfer_stats`, `current_fetch`. -/
structure RuntimeState where
  content_index : List (String × IndexedContent)
  connected : List Nat
  transfer_stats : List (String × TransferStats)
  current_fetch : Option PendingFile
deriving DecidableEq, Repr

/-- The file system visible to the runtime: contents per path, plus which
paths open successfully for truncating write (`OpenOptions::open`) and for
reading (`File::open`). -/
structure Fs where
  files : List (String × Bytes)
  writable : String → Bool
  readable : String → Bool

/-- UTF-8 bytes of a string (all strings in the runs of interest are ASCII,
where code points and bytes coincide). -/
def strBytes (s : String) : Bytes := s.data.map Char.toNat

/-- Little-endian 8-byte encoding of a `u64` (bincode's integer encoding). -/
def u64le (n : Nat) : Bytes := (List.range 8).map (fun i => n / 256 ^ i % 256)

/-- `build_chunk_request`: `bincode::serialize(&(hash.to_string(), offset))` —
8-byte LE byte length, the string bytes, then the 8-byte LE offset. -/
def build_chunk_request (hash : String) (offset : Nat) : Bytes :=
  u64le (strBytes hash).length ++ strBytes hash ++ u64le (offset % 2 ^ 64)

/-- Decode a list of byte values back into a string; fails unless every byte
is an ASCII code point (the inverse of `strBytes` on the strings used). -/
def decodeAscii (b : Bytes) : Option String :=
  if b.all (fun c => c < 128) then some ⟨b.map Char.ofNat⟩ else none

/-- Little-endian value of a byte list. -/
def leVal (b : Bytes) : Nat := b.foldr (fun c acc => c + 256 * acc) 0

/-- `parse_chunk_request`: `bincode::deserialize` of `(String, u64)`; fails on
short input, bad UTF-8, or trailing bytes. -/
def parse_chunk_request (buf : Bytes) : Option (String × Nat) :=
  if 8 ≤ buf.length then
    let len := leVal (buf.take 8)
    let rest := buf.drop 8
    if rest.length = len + 8 then
      match decodeAscii (rest.take len) with
      | some hash => some (hash, leVal (rest.drop len))
      | none => none
    else none
  else none

/-- `Command::Fetch { hash, out_path, reply }` handler: open `out_path` with
create+truncate; if that fails reply `failed to open output file`; else if a
peer is connected send the first `(hash, 0)` chunk request and occupy the
pending-fetch slot (without checking whether it was already occupied), else
reply `no peers connected`. -/
def handleFetch (st : RuntimeState) (fs : Fs) (hash out_path : String)
    (rid : Nat) : RuntimeState × Fs × List Effect :=
  if fs.writable out_path then
    let fs' : Fs := { fs with files := insertKey out_path [] fs.files }
    match st.connected with
    | peer :: _ =>
      ({ st with current_fetch := some ⟨peer, hash, 0, out_path, rid⟩ }, fs',
        [Effect.sendRequest peer (build_chunk_request hash 0)])
    | [] => (st, fs', [Effect.fetchReply rid (RustResult.err "no peers connected")])
  else
    (st, fs, [Effect.fetchReply rid (RustResult.err "failed to open output file")])

/-- `rr::Message::Response` handler: take the pending fetch if any; an empty
chunk replies `Ok(out_path)` and leaves the slot empty; a non-empty chunk is
appended to the output file, the offset advances by its length, and the next
`(hash, offset)` request goes to the same peer. -/
def handleResponse (st : RuntimeState) (fs : Fs) (response : Bytes) :
    RuntimeState × Fs × List Effect :=
  match st.current_fetch with
  | none => (st, fs, [])
  | some pf =>
    if response = [] then
      ({ st with current_fetch := none }, fs,
        [Effect.fetchReply pf.replyId (RustResult.ok pf.out_path)])
    else
      let newContents := (lookupKey pf.out_path fs.files).getD [] ++ response
      let pf' : PendingFile := { pf with offset := pf.offset + response.length }
      ({ st with current_fetch := some pf' },
        { fs with files := insertKey pf.out_path newContents fs.files },
        [Effect.sendRequest pf.peer
          (build_chunk_request pf.hash (pf.offset + response.length))])

/-- Fold `handleResponse` over a sequence of inbound chunk responses,
collecting all effects. -/
def processResponses : RuntimeState → Fs → List Bytes →
    RuntimeState × Fs × List Effect
  | st, fs, [] => (st, fs, [])
  | st, fs, r :: rs =>
    let step := handleResponse st fs r
    let rest := processResponses step.1 step.2.1 rs
    (rest.1, rest.2.1, step.2.2 ++ rest.2.2)

/-- `File::open` on a served path: fails when the OS refuses the open or the
file does not exist; otherwise yields the file's bytes. -/
def fsRead (fs : Fs) (path : String) : Option Bytes :=
  if fs.readable path then lookupKey path fs.files else none

/-- `rr::Message::Request` handler (serve fetch): parse `(hash, offset)`;
look the hash up in the content index; open the file, seek to `offset` and
read up to `CHUNK_SIZE` bytes, sending them as the response.  Unknown hash,
unparseable request, or failed open all send an empty response. -/
def serveRequest (st : RuntimeState) (fs : Fs) (request : Bytes)
    (chan : Nat) : List Effect :=
  match parse_chunk_request request with
  | some (hash, offset) =>
    match lookupKey hash st.content_index with
    | some info =>
      match fsRead fs info.path with
      | some contents =>
        [Effect.sendResponse chan ((contents.drop offset).take CHUNK_SIZE)]
      | none => [Effect.sendResponse chan []]
    | none => [Effect.sendResponse chan []]
  | none => [Effect.sendResponse chan []]

/-- `Command::GetMetrics` handler: one row per content-index entry, reading
that hash's transfer stats (default all-zero when absent):
`(hash, downloaded, size, last_rate_bps, "ok")`. -/
def handleGetMetrics (st : RuntimeState) :
    List (String × Nat × Nat × Nat × String) :=
  st.content_index.map (fun kv =>
    let stat := (lookupKey kv.1 st.transfer_stats).getD TransferStats.zero
    (kv.1, stat.downloaded, stat.size, stat.last_rate_bps, "ok"))

/-- `SwarmEvent::ConnectionEstablished`: insert the peer into the connected
set. -/
def handleConnectionEstablished (st : RuntimeState) (peer : Nat) : RuntimeState :=
  { st with connected :=
      if peer ∈ st.connected then st.connected else peer :: st.connected }

/-- `SwarmEvent::ConnectionClosed`: remove the peer from the connected set. -/
def handleConnectionClosed (st : RuntimeState) (peer : Nat) : RuntimeState :=
  { st with connected := st.connected.filter (fun p => p ≠ peer) }

/-- Rust `str::strip_prefix`. -/
def stripPrefixStr (p s : String) : Option String :=
  if p.data.isPrefixOf s.data then some ⟨s.data.drop p.data.length⟩ else none

/-- Split a character list at the first occurrence of `sep`. -/
def splitFirst (sep : Char) : List Char → Option (List Char × List Char)
  | [] => none
  | c :: cs =>
    if c = sep then some ([], cs)
    else (splitFirst sep cs).map (fun p => (c :: p.1, p.2))

/-- Rust `str::splitn(n, sep)` on character lists: at most `n` parts, the
last part keeping any remaining separators. -/
def splitnAux (sep : Char) : Nat → List Char → List (List Char)
  | 0, _ => []
  | 1, cs => [cs]
  | n + 2, cs =>
    match splitFirst sep cs with
    | none => [cs]
    | some (pre, post) => pre :: splitnAux sep (n + 1) post

/-- Rust `str::splitn(n, sep)` on strings. -/
def splitnStr (n : Nat) (sep : Char) (s : String) : List String :=
  (splitnAux sep n s.data).map (fun cs => ⟨cs⟩)

/-- Rust `str::split(sep)` on character lists (splits at every separator;
an empty input yields one empty part). -/
def splitCharAux (sep : Char) : List Char → List Char → List (List Char)
  | acc, [] => [acc.reverse]
  | acc, c :: cs =>
    if c = sep then acc.reverse :: splitCharAux sep [] cs
    else splitCharAux sep (c :: acc) cs

/-- Rust `str::split(sep)` on strings. -/
def splitChar (sep : Char) (s : String) : List String :=
  (splitCharAux sep [] s.data).map (fun cs => ⟨cs⟩)

/-- Whitespace test for `str::trim` (the runs of interest only contain ASCII
whitespace). -/
def isWs (c : Char) : Bool := c = ' ' || c = '\t' || c = '\n' || c = '\r'

/-- Rust `str::trim`: strip leading and trailing whitespace. -/
def trimStr (s : String) : String :=
  ⟨((s.data.dropWhile isWs).reverse.dropWhile isWs).reverse⟩

/-- Seconds in 24 hours: the expiry offset `Duration::from_secs(24*60*60)`
attached to every record this node writes. -/
def RECORD_TTL : Nat := 24 * 60 * 60

/-- The `kad::Record` built by `Command::UpdateIndex`: key
`allibrary:content:<hash>`, JSON metadata value, publisher = local peer,
expiry = now + 24 h. -/
def mkContentRecord (localPeer now : Nat) (hash path title : String)
    (author : Option String) (tags : List String) : KadRecord :=
  { key := "allibrary:content:" ++ hash
    value := RecordValue.contentJson hash path title author tags localPeer
    publisher := some localPeer
    expires := some (now + RECORD_TTL) }

/-- The `kad::Record` built by `Command::PutRecord`: caller key and raw value
bytes, publisher = local peer, expiry = now + 24 h. -/
def mkPutRecord (localPeer now : Nat) (key : String) (value : Bytes) :
    KadRecord :=
  { key := key
    value := RecordValue.bytes value
    publisher := some localPeer
    expires := some (now + RECORD_TTL) }

/-- The `kad::Record` built by `Command::AddPeerAddress`: key
`allibrary:manual:<address>`, value the address bytes, publisher = local
peer, expiry = now + 24 h. -/
def mkManualPeerRecord (localPeer now : Nat) (address : String) : KadRecord :=
  { key := "allibrary:manual:" ++ address
    value := RecordValue.str address
    publisher := some localPeer
    expires := some (now + RECORD_TTL) }

/-- The presence `kad::Record` built on each announce tick: key
`allibrary:peer:<local-peer-id>`, value the self-announce address bytes,
publisher = local peer, expiry = now + 24 h. -/
def mkPresenceRecord (localPeer now : Nat) (peer_announce : String) :
    KadRecord :=
  { key := "allibrary:peer:" ++ toString localPeer
    value := RecordValue.str peer_announce
    publisher := some localPeer
    expires := some (now + RECORD_TTL) }

/-- The gossip text line broadcast by `UpdateIndex`:
`CONTENT|<hash>|<title>|<author-or-Unknown>|<tags-csv>`. -/
def contentAnnounceMsg (hash title : String) (author : Option String)
    (tags : List String) : String :=
  "CONTENT|" ++ hash ++ "|" ++ title ++ "|" ++ author.getD "Unknown" ++ "|" ++
    String.intercalate "," tags

/-- `Command::UpdateIndex` handler: insert the entry into the content index,
broadcast the `CONTENT|…` announcement on the content topic, and put the
content metadata record into the DHT (put result ignored). -/
def handleUpdateIndex (st : RuntimeState) (localPeer now : Nat)
    (hash path title : String) (author : Option String) (tags : List String) :
    RuntimeState × List Effect :=
  ({ st with content_index :=
      insertKey hash ⟨path, title, author, tags⟩ st.content_index },
    [Effect.gossipPublish "allibrary-content"
        (strBytes (contentAnnounceMsg hash title author tags)),
      Effect.kadPutRecord (mkContentRecord localPeer now hash path title author tags)])

/-- `Command::PutRecord` handler: build the record and hand it to
`kad.put_record`; if initiating the query fails, the error reaches the reply
channel (`kadInit` is the library call's result). -/
def handlePutRecord (localPeer now : Nat) (key : String) (value : Bytes)
    (rid : Nat) (kadInit : RustResult Unit String) : List Effect :=
  Effect.kadPutRecord (mkPutRecord localPeer now key value) ::
    (match kadInit with
      | RustResult.ok _ => []
      | RustResult.err e =>
        [Effect.putReply rid (RustResult.err ("Failed to initiate put record: " ++ e))])

/-- `Command::AddPeerAddress` handler: on a valid multiaddr, dial it, store
the manual-peer record in the DHT (when the put initiates) and reply with a
success message; on a parse failure reply with an error.  `parseOk` is the
result of `address.parse::<Multiaddr>()`. -/
def handleAddPeerAddress (localPeer now : Nat) (address : String)
    (parseOk : Bool) (kadInitOk : Bool) (rid : Nat) : List Effect :=
  if parseOk then
    Effect.dialAddr address ::
      (if kadInitOk then [Effect.kadPutRecord (mkManualPeerRecord localPeer now address)]
        else []) ++
      [Effect.addPeerReply rid
        (RustResult.ok ("Successfully added peer address: " ++ address))]
  else
    [Effect.addPeerReply rid (RustResult.err "Invalid multiaddr format")]

/-- The `announce_tick` arm: when a self-announce address exists, publish it
on the peers topic, put the presence record in the DHT, query the discovery
keys and bootstrap. -/
def announceTick (localPeer now : Nat) (peer_announce : String) : List Effect :=
  if peer_announce = "" then []
  else
    [Effect.gossipPublish "allibrary-peers" (strBytes peer_announce),
      Effect.kadPutRecord (mkPresenceRecord localPeer now peer_announce),
      Effect.kadGetRecord "allibrary:discovery",
      Effect.kadBootstrap,
      Effect.kadGetRecord "allibrary:peer"]

/-- The inbound-gossip branch on the content topic that touches the content
index: a `CONTENT|<hash>|<title>|<author>|<tags-csv>` line (exactly four
`splitn(4, '|')` parts) is inserted into the same `content_index` map with
path `discovered:<hash>`.  The other branches (peer-multiaddr dial, `S|`
search serving, `R|` search responses) only dial or touch the search slot
and leave this state unchanged. -/
def handleContentGossip (st : RuntimeState) (txt : String) : RuntimeState :=
  match stripPrefixStr "CONTENT|" txt with
  | some rest =>
    match splitnStr 4 '|' rest with
    | [hash, title, author, tags] =>
      let discovered : IndexedContent :=
        ⟨"discovered:" ++ hash, title, some author,
          (splitChar ',' tags).map trimStr⟩
      { st with content_index := insertKey hash discovered st.content_index }
    | _ => st
  | none => st

/-- `kad::QueryResult::GetRecord` handler: look the query id up among the
pending gets; on success the reply is `Ok(vec![])` — a placeholder that
ignores the retrieved record — and on failure the error is forwarded. -/
def handleGetRecordResult (pending : List (Nat × Nat)) (qid : Nat)
    (res : RustResult KadGetOk String) : List (Nat × Nat) × List Effect :=
  match lookupKey qid pending with
  | none => (pending, [])
  | some rid =>
    (eraseKey qid pending,
      match res with
      | RustResult.ok _found => [Effect.getReply rid (RustResult.ok [])]
      | RustResult.err e =>
        [Effect.getReply rid (RustResult.err ("Failed to retrieve record: " ++ e))])

/-- The handle returned by a successful `start_runtime`: the peer id and the
sender half of the freshly created command queue (identified by a channel
id). -/
structure RuntimeHandle where
  peer_id : Nat
  command_tx : Nat
deriving DecidableEq, Repr

/-- `start_runtime(socks)`: a SOCKS address is required; then the hidden
service is created (its result is the `hiddenService` argument) *before* the
command channel exists — an `Err` from `create_hidden_service` returns an
error from `start_runtime` and no command queue is ever created. -/
def start_runtime (socks : Option String) (peerId : Nat)
    (hiddenService : RustResult String String) (chanId : Nat) :
    RustResult RuntimeHandle String :=
  match socks with
  | none => RustResult.err "SOCKS proxy is required for P2P runtime"
  | some _ =>
    match hiddenService with
    | RustResult.err e =>
      RustResult.err ("Tor hidden service creation failed: " ++ e)
    | RustResult.ok _onion => RustResult.ok ⟨peerId, chanId⟩

/-- The facade's process-wide cells (`P2P_TX` and the `RUNTIME` mirror in
`commands/p2p.rs`). -/
structure FacadeState where
  p2p_tx : Option Nat
  runtime_online : Bool
deriving DecidableEq, Repr

/-- `start_libp2p_with_socks`: run `start_runtime`; on error return `false`
leaving the cells untouched; on success publish the command queue sender in
`P2P_TX` and mark the runtime online. -/
def start_libp2p_with_socks (st : FacadeState) (socks_addr : String)
    (peerId : Nat) (hiddenService : RustResult String String) (chanId : Nat) :
    FacadeState × Bool :=
  match start_runtime (some socks_addr) peerId hiddenService chanId with
  | RustResult.err _ => (st, false)
  | RustResult.ok h => ({ p2p_tx := some h.command_tx, runtime_online := true }, true)

lemma lookupKey_insertKey_self {κ α : Type} [DecidableEq κ] (k : κ) (v : α)
    (m : List (κ × α)) : lookupKey k (insertKey k v m) = some v := by
  simp [lookupKey, insertKey]

/-- Claim C9: if hidden-service creation fails during startup,
`start_runtime` returns an error, `start_libp2p_with_socks` returns `false`,
and the process-wide command-queue cell is left untouched — no command queue
is published, so no subsequent command can reach a runtime. -/
theorem C9_hidden_service_failure_fatal (st : FacadeState) (socks : String)
    (peerId : Nat) (e : String) (chanId : Nat) :
    start_runtime (some socks) peerId (RustResult.err e) chanId
        = RustResult.err ("Tor hidden service creation failed: " ++ e)
      ∧ start_libp2p_with_socks st socks peerId (RustResult.err e) chanId
        = (st, false)
      ∧ (start_libp2p_with_socks st socks peerId (RustResult.err e) chanId).1.p2p_tx
        = st.p2p_tx := by
  refine ⟨rfl, rfl, rfl⟩

/-- Claim C8: every DHT record written by this node — on `UpdateIndex`,
`PutRecord`, `AddPeerAddress`, and the periodic self-announce — carries
`publisher` equal to the local peer id and an explicit expiry of 24 hours
(86400 s) from the time of writing. -/
theorem C8_records_publisher_and_expiry (st : RuntimeState)
    (localPeer now : Nat) (hash path title : String) (author : Option String)
    (tags : List String) (key : String) (value : Bytes) (rid : Nat)
    (kadInit : RustResult Unit String) (address : String)
    (parseOk kadInitOk : Bool) (rid2 : Nat) (announce : String)
    (r0 : KadRecord)
    (hmem : Effect.kadPutRecord r0
          ∈ (handleUpdateIndex st localPeer now hash path title author tags).2
        ∨ Effect.kadPutRecord r0 ∈ handlePutRecord localPeer now key value rid kadInit
        ∨ Effect.kadPutRecord r0
          ∈ handleAddPeerAddress localPeer now address parseOk kadInitOk rid2
        ∨ Effect.kadPutRecord r0 ∈ announceTick localPeer now announce) :
    r0.publisher = some localPeer ∧ r0.expires = some (now + 24 * 60 * 60) := by
  have goal : r0.publisher = some localPeer ∧ r0.expires = some (now + RECORD_TTL) := by
    rcases hmem with h | h | h | h
    · simp [handleUpdateIndex] at h
      subst h
      exact ⟨rfl, rfl⟩
    · cases kadInit <;> simp [handlePutRecord] at h <;>
        · subst h
          exact ⟨rfl, rfl⟩
    · cases parseOk <;> cases kadInitOk <;> simp [handleAddPeerAddress] at h <;>
        · subst h
          exact ⟨rfl, rfl⟩
    · by_cases hann : announce = ""
      · simp [announceTick, hann] at h
      · simp [announceTick, hann] at h
        subst h
        exact ⟨rfl, rfl⟩
  simpa [RECORD_TTL] using goal

/-- Claim C8 witness: the presence record written at a concrete announce
tick has the local publisher and the 24-hour expiry. -/
theorem C8_records_publisher_and_expiry_witness :
    (mkPresenceRecord 7 100 "addr").publisher = some 7
      ∧ (mkPresenceRecord 7 100 "addr").expires = some (100 + 24 * 60 * 60) :=
  C8_records_publisher_and_expiry ⟨[], [], [], none⟩ 7 100 "" "" "" none [] ""
    [] 0 (RustResult.ok ()) "" false false 0 "addr" (mkPresenceRecord 7 100 "addr")
    (Or.inr (Or.inr (Or.inr (by decide))))

/-- Claim C1: `PutRecord(k,v)` then `GetRecord(k)` is claimed to reply
`Ok(v)`; the code's `GetRecord` success handler instead replies with the
`Ok(vec![])` placeholder, ignoring the retrieved record.  Evaluated at the
failing input: the record `(\"k\", [1,2,3])` is found, yet the reply is
`Ok([])`, not `Ok([1,2,3])`. -/
theorem C1_get_record_placeholder :
    handleGetRecordResult [(5, 9)] 5
        (RustResult.ok (KadGetOk.foundRecord (mkPutRecord 7 0 "k" [1, 2, 3])))
      = ([], [Effect.getReply 9 (RustResult.ok [])])
      ∧ (RustResult.ok [1, 2, 3] : RustResult Bytes String) ≠ RustResult.ok [] := by
  exact ⟨by decide, by decide⟩

/-- Claim C6: a `Fetch` processed while the connected-peer set is empty sends
no chunk request to any peer, and (the output file having opened) replies
exactly with the error `no peers connected`. -/
theorem C6_fetch_no_peers (st : RuntimeState) (fs : Fs)
    (hash out_path : String) (rid : Nat) (hconn : st.connected = []) :
    (∀ p q, Effect.sendRequest p q ∉ (handleFetch st fs hash out_path rid).2.2)
      ∧ (fs.writable out_path = true →
          (handleFetch st fs hash out_path rid).2.2
            = [Effect.fetchReply rid (RustResult.err "no peers connected")]) := by
  by_cases hw : fs.writable out_path
  · constructor
    · intro p q
      simp [handleFetch, hw, hconn]
    · intro _
      simp [handleFetch, hw, hconn]
  · constructor
    · intro p q
      simp [handleFetch, hw]
    · intro hw'
      exact absurd hw' (by simp [hw])

/-- Claim C6 witness: on a fresh runtime with no connected peers, a concrete
`Fetch` replies `no peers connected`. -/
theorem C6_fetch_no_peers_witness :
    (handleFetch ⟨[], [], [], none⟩ ⟨[], fun _ => true, fun _ => true⟩
        "h" "out" 1).2.2
      = [Effect.fetchReply 1 (RustResult.err "no peers connected")] :=
  (C6_fetch_no_peers ⟨[], [], [], none⟩ ⟨[], fun _ => true, fun _ => true⟩
      "h" "out" 1 rfl).2 rfl

/-- Claim C10: a `Fetch` whose output file opens truncates the file at
`out_path` to length zero (creating it if absent) regardless of the
connected-peer check, so a fetch failing with `no peers connected` still
leaves an existing empty file, destroying any pre-existing contents. -/
theorem C10_fetch_truncates_before_peer_check (st : RuntimeState) (fs : Fs)
    (hash out_path : String) (rid : Nat) (hw : fs.writable out_path = true) :
    lookupKey out_path (handleFetch st fs hash out_path rid).2.1.files = some []
      ∧ (st.connected = [] →
          (handleFetch st fs hash out_path rid).2.2
            = [Effect.fetchReply rid (RustResult.err "no peers connected")]) := by
  constructor
  · cases hc : st.connected with
    | nil => simp [handleFetch, hw, hc, lookupKey_insertKey_self]
    | cons p ps => simp [handleFetch, hw, hc, lookupKey_insertKey_self]
  · intro hconn
    simp [handleFetch, hw, hconn]

/-- Claim C10 witness: a concrete no-peers `Fetch` over a file that
previously held two bytes leaves it present and empty. -/
theorem C10_fetch_truncates_before_peer_check_witness :
    lookupKey "out"
        (handleFetch ⟨[], [], [], none⟩
          ⟨[("out", [5, 6])], fun _ => true, fun _ => true⟩
          "h" "out" 1).2.1.files = some []
      ∧ (handleFetch ⟨[], [], [], none⟩
          ⟨[("out", [5, 6])], fun _ => true, fun _ => true⟩
          "h" "out" 1).2.2
        = [Effect.fetchReply 1 (RustResult.err "no peers connected")] :=
  ⟨(C10_fetch_truncates_before_peer_check ⟨[], [], [], none⟩
      ⟨[("out", [5, 6])], fun _ => true, fun _ => true⟩ "h" "out" 1 rfl).1,
    (C10_fetch_truncates_before_peer_check ⟨[], [], [], none⟩
      ⟨[("out", [5, 6])], fun _ => true, fun _ => true⟩ "h" "out" 1 rfl).2 rfl⟩

/-- Claim C3 counterexample: with a fetch already pending (reply channel 1)
and peer 7 connected, a second `Fetch` is neither queued nor rejected with a
slot-busy error: it overwrites the pending-fetch slot and the only effect is
the new chunk request — the first fetch is silently abandoned, no reply ever
reaching channel 1. -/
theorem C3_second_fetch_overwrites_slot :
    (handleFetch ⟨[], [7], [], some ⟨3, "h1", 5, "out1", 1⟩⟩
        ⟨[("out1", [9])], fun _ => true, fun _ => true⟩ "h2" "out2" 2).1.current_fetch
      = some ⟨7, "h2", 0, "out2", 2⟩
      ∧ (handleFetch ⟨[], [7], [], some ⟨3, "h1", 5, "out1", 1⟩⟩
          ⟨[("out1", [9])], fun _ => true, fun _ => true⟩ "h2" "out2" 2).2.2
        = [Effect.sendRequest 7 (build_chunk_request "h2" 0)] := by
  exact ⟨rfl, rfl⟩

/-- Claim C3 (amended): the pending-fetch slot is single-capacity, but a
second `Fetch` submitted while one is in progress is neither queued nor
rejected: when a peer is connected and the output file opens, it overwrites
the slot with the new fetch and emits only the new chunk request; the first
fetch's reply channel is dropped without any reply. -/
theorem C3_second_fetch_replaces_first (st : RuntimeState) (fs : Fs)
    (pf1 : PendingFile) (hash out_path : String) (rid p : Nat) (ps : List Nat)
    (hcf : st.current_fetch = some pf1) (hconn : st.connected = p :: ps)
    (hw : fs.writable out_path = true) :
    (handleFetch st fs hash out_path rid).1.current_fetch
        = some ⟨p, hash, 0, out_path, rid⟩
      ∧ (handleFetch st fs hash out_path rid).2.2
        = [Effect.sendRequest p (build_chunk_request hash 0)]
      ∧ (∀ r, Effect.fetchReply pf1.replyId r
          ∉ (handleFetch st fs hash out_path rid).2.2) := by
  refine ⟨?_, ?_, ?_⟩
  · simp [handleFetch, hw, hconn]
  · simp [handleFetch, hw, hconn]
  · intro r
    simp [handleFetch, hw, hconn]

/-- Claim C3 (amended) witness: the concrete second fetch of
`C3_second_fetch_overwrites_slot`, derived from the general statement. -/
theorem C3_second_fetch_replaces_first_witness :
    (handleFetch ⟨[], [7], [], some ⟨3, "h1", 5, "out1", 1⟩⟩
        ⟨[("out1", [9])], fun _ => true, fun _ => true⟩ "h2" "out2" 2).1.current_fetch
      = some ⟨7, "h2", 0, "out2", 2⟩ :=
  (C3_second_fetch_replaces_first ⟨[], [7], [], some ⟨3, "h1", 5, "out1", 1⟩⟩
      ⟨[("out1", [9])], fun _ => true, fun _ => true⟩ ⟨3, "h1", 5, "out1", 1⟩
      "h2" "out2" 2 7 [] rfl rfl rfl).1

/-- Claim C4 counterexample: hash `h` is locally published with path
`/local/doc.pdf`; an inbound `CONTENT|h|T2|A|x,y` announcement for the same
hash overwrites the entry in the same `content_index` map — the stored path
becomes `discovered:h`, so the locally published entry is replaced, not kept
in a separate discovered-content map. -/
theorem C4_gossip_overwrites_local_entry :
    lookupKey "h"
        (handleContentGossip
          ⟨[("h", ⟨"/local/doc.pdf", "Title", none, []⟩)], [], [], none⟩
          "CONTENT|h|T2|A|x,y").content_index
      = some ⟨"discovered:h", "T2", some "A", ["x", "y"]⟩
      ∧ (⟨"discovered:h", "T2", some "A", ["x", "y"]⟩ : IndexedContent)
        ≠ ⟨"/local/doc.pdf", "Title", none, []⟩ := by
  exact ⟨by decide, by decide⟩

/-- Claim C4 (amended): processing an inbound CONTENT announcement for hash
`H` stores the discovered reference in the *same* `content_index` map under
`H`, with path `discovered:H` (the prefix marker) — overwriting any locally
published entry for `H` rather than keeping it in a separate map. -/
theorem C4_gossip_inserts_discovered (st : RuntimeState)
    (txt rest hash title author tags : String)
    (hstrip : stripPrefixStr "CONTENT|" txt = some rest)
    (hsplit : splitnStr 4 '|' rest = [hash, title, author, tags]) :
    lookupKey hash (handleContentGossip st txt).content_index
      = some ⟨"discovered:" ++ hash, title, some author,
          (splitChar ',' tags).map trimStr⟩ := by
  simp [handleContentGossip, hstrip, hsplit, lookupKey_insertKey_self]

/-- Claim C4 (amended) witness: the concrete announcement of the
counterexample, derived from the general statement. -/
theorem C4_gossip_inserts_discovered_witness :
    lookupKey "h"
        (handleContentGossip
          ⟨[("h", ⟨"/local/doc.pdf", "Title", none, []⟩)], [], [], none⟩
          "CONTENT|h|T2|A|x,y").content_index
      = some ⟨"discovered:" ++ "h", "T2", some "A",
          (splitChar ',' "x,y").map trimStr⟩ :=
  C4_gossip_inserts_discovered
    ⟨[("h", ⟨"/local/doc.pdf", "Title", none, []⟩)], [], [], none⟩
    "CONTENT|h|T2|A|x,y" "h|T2|A|x,y" "h" "T2" "A" "x,y" (by decide) (by decide)

/-- Claim C5 counterexample: hash `h` is indexed, a fetch of `h` is active,
and a 3-byte chunk arrives; the transfer-stats map stays empty and the
subsequent `GetMetrics` snapshot reads back `downloaded = 0` for `h` — not
increased by the chunk length 3. -/
theorem C5_chunk_does_not_update_stats :
    (handleResponse
        ⟨[("h", ⟨"/f", "T", none, []⟩)], [7], [], some ⟨7, "h", 0, "out", 1⟩⟩
        ⟨[("out", [])], fun _ => true, fun _ => true⟩ [1, 2, 3]).1.transfer_stats
      = []
      ∧ handleGetMetrics
          (handleResponse
            ⟨[("h", ⟨"/f", "T", none, []⟩)], [7], [], some ⟨7, "h", 0, "out", 1⟩⟩
            ⟨[("out", [])], fun _ => true, fun _ => true⟩ [1, 2, 3]).1
        = [("h", 0, 0, 0, "ok")]
      ∧ (0 : Nat) ≠ 0 + 3 := by
  refine ⟨by decide, by decide, by decide⟩

/-- Claim C5 (amended): receiving a chunk during an active fetch leaves the
per-hash transfer-stats map unchanged (the runtime never writes it), so a
subsequent `GetMetrics` snapshot is identical to one taken before the chunk
— the counters for the fetched hash stay at their previous (default zero)
values. -/
theorem C5_metrics_unchanged_by_chunk (st : RuntimeState) (fs : Fs)
    (response : Bytes) :
    (handleResponse st fs response).1.transfer_stats = st.transfer_stats
      ∧ handleGetMetrics (handleResponse st fs response).1
        = handleGetMetrics st := by
  have hfields : (handleResponse st fs response).1.transfer_stats = st.transfer_stats
      ∧ (handleResponse st fs response).1.content_index = st.content_index := by
    cases hcf : st.current_fetch with
    | none => simp [handleResponse, hcf]
    | some pf =>
      by_cases hr : response = []
      · simp [handleResponse, hcf, hr]
      · simp [handleResponse, hcf, hr]
  refine ⟨hfields.1, ?_⟩
  unfold handleGetMetrics
  rw [hfields.1, hfields.2]

/-- Claim C7: an inbound chunk request is served as follows — an unparseable
request, an unknown hash, or a file that fails to open each produce an empty
response; a known hash whose file opens produces exactly the file's bytes
from `offset`, at most `CHUNK_SIZE` (64 KiB) of them. -/
theorem C7_serve_request (st : RuntimeState) (fs : Fs) (request : Bytes)
    (chan : Nat) :
    (parse_chunk_request request = none →
        serveRequest st fs request chan = [Effect.sendResponse chan []])
      ∧ (∀ hash offset, parse_chunk_request request = some (hash, offset) →
          (lookupKey hash st.content_index = none →
              serveRequest st fs request chan = [Effect.sendResponse chan []])
            ∧ (∀ info, lookupKey hash st.content_index = some info →
                (fsRead fs info.path = none →
                    serveRequest st fs request chan
                      = [Effect.sendResponse chan []])
                  ∧ (∀ contents, fsRead fs info.path = some contents →
                      serveRequest st fs request chan
                          = [Effect.sendResponse chan
                              ((contents.drop offset).take CHUNK_SIZE)]
                        ∧ ((contents.drop offset).take CHUNK_SIZE).length
                            ≤ CHUNK_SIZE))) := by
  constructor
  · intro hp
    simp [serveRequest, hp]
  · intro hash offset hp
    constructor
    · intro hix
      simp [serveRequest, hp, hix]
    · intro info hix
      constructor
      · intro hrd
        simp [serveRequest, hp, hix, hrd]
      · intro contents hrd
        constructor
        · simp [serveRequest, hp, hix, hrd]
        · exact le_trans (List.length_take_le _ _) (le_refl _)

/-- Claim C7 witness: a concrete request `(\"a\", 0)` against an index entry
whose file holds two bytes is answered with exactly those two bytes. -/
theorem C7_serve_request_witness :
    serveRequest ⟨[("a", ⟨"/f", "T", none, []⟩)], [], [], none⟩
        ⟨[("/f", [10, 20])], fun _ => true, fun _ => true⟩
        (build_chunk_request "a" 0) 3
      = [Effect.sendResponse 3 [10, 20]] := by
  have h := (C7_serve_request ⟨[("a", ⟨"/f", "T", none, []⟩)], [], [], none⟩
      ⟨[("/f", [10, 20])], fun _ => true, fun _ => true⟩
      (build_chunk_request "a" 0) 3).2 "a" 0 (by decide)
  have h2 := (h.2 ⟨"/f", "T", none, []⟩ (by decide)).2 [10, 20] (by decide)
  simpa using h2.1

/-- The sequence of follow-up chunk requests issued while receiving
`chunks`, starting from byte offset `off`: after each chunk the offset has
advanced by exactly that chunk's length and the next `(hash, offset)`
request goes to the same peer. -/
def chunkRequests (peer : Nat) (hash : String) : Nat → List Bytes → List Effect
  | _, [] => []
  | off, c :: cs =>
    Effect.sendRequest peer (build_chunk_request hash (off + c.length)) ::
      chunkRequests peer hash (off + c.length) cs

lemma processResponses_no_fetch (fs : Fs) (rs : List Bytes)
    (st : RuntimeState) (h : st.current_fetch = none) :
    processResponses st fs rs = (st, fs, []) := by
  induction rs with
  | nil => rfl
  | cons r rs ih => simp [processResponses, handleResponse, h, ih]

lemma handleResponse_empty (st : RuntimeState) (fs : Fs) (pf : PendingFile)
    (hcf : st.current_fetch = some pf) :
    handleResponse st fs []
      = ({ st with current_fetch := none }, fs,
          [Effect.fetchReply pf.replyId (RustResult.ok pf.out_path)]) := by
  simp [handleResponse, hcf]

lemma handleResponse_chunk (st : RuntimeState) (fs : Fs) (pf : PendingFile)
    (c L : Bytes) (hcf : st.current_fetch = some pf) (hc : c ≠ [])
    (hfile : lookupKey pf.out_path fs.files = some L) :
    handleResponse st fs c
      = ({ st with current_fetch := some { pf with offset := pf.offset + c.length } },
          { fs with files := insertKey pf.out_path (L ++ c) fs.files },
          [Effect.sendRequest pf.peer (build_chunk_request pf.hash (pf.offset + c.length))]) := by
  simp [handleResponse, hcf, hc, hfile]

lemma processResponses_run (peer : Nat) (hash out_path : String) (rid : Nat)
    (chunks : List Bytes) :
    ∀ (st : RuntimeState) (fs : Fs) (off : Nat) (L : Bytes) (rest : List Bytes),
      st.current_fetch = some ⟨peer, hash, off, out_path, rid⟩ →
      lookupKey out_path fs.files = some L →
      (∀ c ∈ chunks, c ≠ []) →
      (processResponses st fs (chunks ++ [] :: rest)).1.current_fetch = none
        ∧ lookupKey out_path
            (processResponses st fs (chunks ++ [] :: rest)).2.1.files
          = some (L ++ chunks.flatten)
        ∧ (processResponses st fs (chunks ++ [] :: rest)).2.2
          = chunkRequests peer hash off chunks
              ++ [Effect.fetchReply rid (RustResult.ok out_path)] := by
  induction chunks with
  | nil =>
    intro st fs off L rest hcf hfile _
    have hstep := handleResponse_empty st fs _ hcf
    have hrest : processResponses { st with current_fetch := none } fs rest
        = ({ st with current_fetch := none }, fs, []) :=
      processResponses_no_fetch fs rest _ rfl
    simp [processResponses, hstep, hrest, chunkRequests, hfile]
  | cons c cs ih =>
    intro st fs off L rest hcf hfile hne
    have hc : c ≠ [] := hne c (List.mem_cons_self c cs)
    have hstep := handleResponse_chunk st fs _ c L hcf hc hfile
    have hnext := ih { st with current_fetch := some ⟨peer, hash, off + c.length, out_path, rid⟩ }
      { fs with files := insertKey out_path (L ++ c) fs.files }
      (off + c.length) (L ++ c) rest rfl
      (lookupKey_insertKey_self out_path (L ++ c) fs.files)
      (fun d hd => hne d (List.mem_cons_of_mem c hd))
    refine ⟨?_, ?_, ?_⟩
    · simpa [processResponses, hstep] using hnext.1
    · have h2 := hnext.2.1
      rw [List.append_assoc] at h2
      simpa [processResponses, hstep] using h2
    · have h3 := hnext.2.2
      simp only [List.cons_append, processResponses]
      rw [hstep]
      simp [chunkRequests, h3]

/-- Claim C2: starting from an active fetch at offset `off` over a truncated
(empty) output file, a run of non-empty chunk responses followed by the
first empty response appends every chunk to the output file in order, issues
after each chunk the next `(hash, offset + chunk length)` request to the
same peer, and on the empty response replies `Ok(out_path)` and clears the
pending-fetch slot; the final file is the concatenation of the non-empty
chunks, so its length is the sum of their lengths, and any responses after
the empty one are ignored. -/
theorem C2_fetch_response_loop (st : RuntimeState) (fs : Fs) (peer : Nat)
    (hash out_path : String) (rid off : Nat) (chunks rest : List Bytes)
    (hcf : st.current_fetch = some ⟨peer, hash, off, out_path, rid⟩)
    (hfile : lookupKey out_path fs.files = some [])
    (hne : ∀ c ∈ chunks, c ≠ []) :
    (processResponses st fs (chunks ++ [] :: rest)).1.current_fetch = none
      ∧ lookupKey out_path
          (processResponses st fs (chunks ++ [] :: rest)).2.1.files
        = some chunks.flatten
      ∧ chunks.flatten.length = (chunks.map List.length).sum
      ∧ (processResponses st fs (chunks ++ [] :: rest)).2.2
        = chunkRequests peer hash off chunks
            ++ [Effect.fetchReply rid (RustResult.ok out_path)] := by
  have h := processResponses_run peer hash out_path rid chunks st fs off []
    rest hcf hfile hne
  refine ⟨h.1, by simpa using h.2.1, ?_, h.2.2⟩
  simp [List.length_flatten]

/-- Claim C2 witness: a concrete fetch receiving chunks `[1,2]` and `[3]`,
then the empty terminator (a later stray response is ignored): the file ends
as `[1,2,3]`, the follow-up requests carry offsets 2 and 3, and the reply is
`Ok("out")`. -/
theorem C2_fetch_response_loop_witness :
    (processResponses
        ⟨[], [7], [], some ⟨7, "h", 0, "out", 1⟩⟩
        ⟨[("out", [])], fun _ => true, fun _ => true⟩
        ([[1, 2], [3]] ++ [] :: [[9]])).1.current_fetch = none
      ∧ lookupKey "out"
          (processResponses
            ⟨[], [7], [], some ⟨7, "h", 0, "out", 1⟩⟩
            ⟨[("out", [])], fun _ => true, fun _ => true⟩
            ([[1, 2], [3]] ++ [] :: [[9]])).2.1.files
        = some [1, 2, 3]
      ∧ (processResponses
          ⟨[], [7], [], some ⟨7, "h", 0, "out", 1⟩⟩
          ⟨[("out", [])], fun _ => true, fun _ => true⟩
          ([[1, 2], [3]] ++ [] :: [[9]])).2.2
        = chunkRequests 7 "h" 0 [[1, 2], [3]]
            ++ [Effect.fetchReply 1 (RustResult.ok "out")] := by
  have h := C2_fetch_response_loop
    ⟨[], [7], [], some ⟨7, "h", 0, "out", 1⟩⟩
    ⟨[("out", [])], fun _ => true, fun _ => true⟩
    7 "h" "out" 1 0 [[1, 2], [3]] [[9]] rfl (by decide) (by decide)
  exact ⟨h.1, by simpa using h.2.1, h.2.2.2⟩

end AlLibrary
